import Mathlib

/-!
Shallow embedding of the dataset-construction pipeline of
`src/data_prep2.py` (class `LabeledVideoDataset`).

Modelling conventions:
* Tokens and external clip ids are `Nat` (the source uses strings; only the
  identity of a token matters to the vocabulary lookup, not its spelling).
* A decoded frame is an opaque `Nat` (pixel contents, spatial resizing,
  BGR-to-RGB conversion and the `/255` normalisation never influence the
  claims; only the temporal structure of the frame list does).
* Python dictionaries (`self.t2i`, `self._i2i`) are association lists with
  insert-or-overwrite and `.get` lookup.
* `pickle.dump`/`pickle.load` are modelled as the identity on values: the
  cache file system is an association list from a key (derived from the
  input path stem) to the stored `(data, i2i)` pair.
* Exceptions (`KeyError` for a missing vocabulary token, `IndexError` for
  `sen[0]` on an empty sequence, numpy broadcast `ValueError`) become the
  `Except VecError` monad; `np.take` over a list containing `None`
  (a failed `_i2i.get`) raises, modelled by `Option` failure.
-/

/-- Vectorization mode of `sen2vec` (constructor argument `mode`, plus the
two fixed call-site modes `action` and `label` of `_processSample`). -/
inductive Mode where
  | toy
  | simple
  | action
  | label
deriving DecidableEq

/-- Errors surfaced by vectorization and packing: a missing vocabulary
entry (`KeyError`), indexing an empty sequence (`IndexError`), and a numpy
shape mismatch when writing into a fixed-width field (`ValueError`). -/
inductive VecError where
  | missingVocab (w : Nat)
  | indexError
  | broadcastError
deriving DecidableEq

/-- Output of `sen2vec`: a bare scalar (mode `toy`) or an integer array. -/
inductive EncOut where
  | scal (n : Nat)
  | arr (xs : List Nat)
deriving DecidableEq

/-- Collaborator-supplied text state (from the `TextProcessor` base class):
vocabulary map `t2i`, global maximum label length `_max_len`, global maximum
action length `_act_max_len`, and the constructor mode `_mode`. -/
structure TextParams where
  t2i : List (Nat × Nat)
  maxLen : Nat
  actMaxLen : Nat
  mode : Mode
deriving DecidableEq

/-- Pipeline configuration: target temporal depth `D` (first component of
`video_shape`) and the subsampling `step`. Spatial dimensions are
abstracted away. -/
structure Config where
  D : Nat
  step : Nat
deriving DecidableEq

/-- One row of the sample table `self.df` joined with the clip it names:
external id, label/object/action token sequences, the container-metadata
frame count `int(ViCap.get(cv2.CAP_PROP_FRAME_COUNT))`, and the frames the
decoder can actually deliver. -/
structure Sample where
  id : Nat
  label : List Nat
  obj : List Nat
  act : List Nat
  metaFrames : Nat
  stream : List Nat
deriving DecidableEq

/-- Dictionary lookup, Python `dict.get`. -/
def dictGet (d : List (Nat × Nat)) (k : Nat) : Option Nat :=
  (d.find? (fun p => p.1 == k)).map (fun p => p.2)

/-- Dictionary insert-or-overwrite, Python `d[k] = v`. -/
def dictInsert (d : List (Nat × Nat)) (k v : Nat) : List (Nat × Nat) :=
  if d.any (fun p => p.1 == k) then
    d.map (fun p => if p.1 == k then (k, v) else p)
  else d ++ [(k, v)]

/-- Embedding of `sen2vec` (src/data_prep2.py lines 68-86). In mode `toy`
the result is `t2i[sen[0]]`; otherwise every token is looked up, mode
`simple` returns the unpadded array, and the remaining modes write the
indices into a zero array of width `_max_len` for mode `action` and
`_act_max_len` otherwise (this is the source's exact conditional on
line 83). Writing a too-long filling into the fixed slice raises. -/
def sen2vec (tp : TextParams) (sen : List Nat) (mode : Mode) :
    Except VecError EncOut :=
  if mode = Mode.toy then
    match sen with
    | [] => Except.error VecError.indexError
    | w :: _ =>
      match dictGet tp.t2i w with
      | none => Except.error (VecError.missingVocab w)
      | some n => Except.ok (EncOut.scal n)
  else do
    let filling ← sen.mapM (fun w =>
      match dictGet tp.t2i w with
      | none => Except.error (VecError.missingVocab w)
      | some n => Except.ok n)
    if mode = Mode.simple then
      pure (EncOut.arr filling)
    else
      let m := if mode = Mode.action then tp.maxLen else tp.actMaxLen
      if filling.length ≤ m then
        pure (EncOut.arr (filling ++ List.replicate (m - filling.length) 0))
      else Except.error VecError.broadcastError

/-- Major record appended by `_processSample`:
`(lbl_vec, lbl_len, frames)`. The label length is an `Int` because Python's
`act_len + obj_len - 1` may be negative. -/
structure MajorRec where
  lbl : EncOut
  lblLen : Int
  video : List Nat
deriving DecidableEq

/-- Minor record appended by `_processSample`: `(obj_vec, act_vec, act_len)`. -/
structure MinorRec where
  objVec : EncOut
  actVec : EncOut
  actLen : Nat
deriving DecidableEq

/-- Embedding of `_processSample` (lines 149-164): computes the two length
fields, vectorizes object, action and label, and produces the minor and
major records that the source appends to `self.data`. -/
def processSample (tp : TextParams) (frames : List Nat) (s : Sample) :
    Except VecError (MinorRec × MajorRec) := do
  let objLen := s.obj.length
  let actLen := s.act.length
  let lblLen : Int := (actLen : Int) + (objLen : Int) - 1
  let objVec ← sen2vec tp s.obj tp.mode
  let actVec ← sen2vec tp s.act Mode.action
  let lblVec ← sen2vec tp s.label Mode.label
  pure (⟨objVec, actVec, actLen⟩, ⟨lblVec, lblLen, frames⟩)

/-- Helper for the extended slice: `c` counts how many elements remain to
be skipped before the next retained element. -/
def sliceEveryAux (k : Nat) : Nat → List α → List α
  | _, [] => []
  | 0, x :: xs => x :: sliceEveryAux k (k - 1) xs
  | c + 1, _ :: xs => sliceEveryAux k c xs

/-- Python slice `l[::k]`: keep the elements at indices `0, k, 2k, ...`.
Applied on the temporal axis, this is `frames[:, ::k]` of line 108 (the
transpose of line 107 moves channels out front; subsampling the temporal
axis commutes with it, and frames are opaque here). -/
def sliceEvery (k : Nat) (l : List α) : List α :=
  sliceEveryAux k 0 l

/-- Embedding of `_extractFrames` (lines 125-147): read frames until the
stream is exhausted or `length` frames were delivered; returns the frames
and their count `CNT`. -/
def extractFrames (stream : List Nat) (length : Nat) : List Nat × Nat :=
  (stream.take length, (stream.take length).length)

/-- The per-clip multiplier `int(_D) // D` (line 104). -/
def multiplierOf (cfg : Config) (s : Sample) : Nat :=
  s.metaFrames / cfg.D

/-- Frames that must be decoded for acceptance, `D * mult[-1]` (line 105). -/
def requiredOf (cfg : Config) (s : Sample) : Nat :=
  cfg.D * multiplierOf cfg s

/-- The resampled video of an accepted clip:
`frames[:, ::step * mult[-1]]` applied to the `requiredOf` decoded frames. -/
def resampleOf (cfg : Config) (s : Sample) : List Nat :=
  sliceEvery (cfg.step * multiplierOf cfg s)
    (extractFrames s.stream (requiredOf cfg s)).1

/-- Mutable state of the `_prepareDatabase` loop (lines 93-116): the two
record accumulators, the id-to-index map `_i2i`, the running `new_index`
and `corrupted` counters, the working multiplier list `mult`, and the
source sample table `self.df`. -/
structure PrepState where
  major : List MajorRec
  minor : List MinorRec
  i2i : List (Nat × Nat)
  newIndex : Nat
  corrupted : Nat
  mult : List Nat
  df : List (Nat × Sample)
deriving DecidableEq

/-- One iteration of the `_prepareDatabase` loop (lines 98-115) on the row
`(old_index, sample)`. A clip whose metadata frame count is below the
depth is skipped by `continue`. Otherwise the multiplier is pushed,
`D * mult[-1]` frames are requested, and on full delivery the sample is
processed and indexed; on truncation the corrupted counter is incremented,
the multiplier popped, and — exactly as in the source — the value returned
by `self.df.drop(old_index)` is discarded, leaving `df` unchanged. -/
def prepStep (tp : TextParams) (cfg : Config) (st : PrepState)
    (row : Nat × Sample) : Except VecError PrepState :=
  let s := row.2
  if s.metaFrames < cfg.D then Except.ok st
  else
    let m := multiplierOf cfg s
    let mult' := st.mult ++ [m]
    let ex := extractFrames s.stream (cfg.D * m)
    if ex.2 = cfg.D * m then do
      let resampled := sliceEvery (cfg.step * m) ex.1
      let pr ← processSample tp resampled s
      Except.ok { st with
        major := st.major ++ [pr.2]
        minor := st.minor ++ [pr.1]
        i2i := dictInsert st.i2i s.id st.newIndex
        newIndex := st.newIndex + 1
        mult := mult' }
    else
      Except.ok { st with
        corrupted := st.corrupted + 1
        mult := mult'.dropLast }

/-- Initial loop state: empty accumulators, counters at zero, and the full
sample table held in `self.df`. -/
def initPrepState (rows : List (Nat × Sample)) : PrepState :=
  ⟨[], [], [], 0, 0, [], rows⟩

/-- Embedding of `_prepareDatabase` up to line 116: fold the loop body over
the rows of the sample table. -/
def prepareDatabase (tp : TextParams) (cfg : Config)
    (rows : List (Nat × Sample)) : Except VecError PrepState :=
  rows.foldlM (prepStep tp cfg) (initPrepState rows)

/-- Does a produced encoding fit a declared fixed-width integer field of a
structured dtype? An exact-width array fits; numpy also broadcasts a bare
scalar or a length-one array across the field. -/
def fitsField (width : Nat) : EncOut → Bool
  | EncOut.scal _ => true
  | EncOut.arr xs => xs.length == width || xs.length == 1

/-- Packing of the major accumulator (lines 117-120): `np.array` with dtype
`[('', 'i8', _max_len), ('', 'i8'), ('', 'f4', (C, D // step, H, W))]`
raises unless every label vector fits width `_max_len` and every video
tensor fits temporal length `D // step`. -/
def packMajor (tp : TextParams) (cfg : Config) (recs : List MajorRec) :
    Except VecError (List MajorRec) :=
  if recs.all (fun r =>
      fitsField tp.maxLen r.lbl &&
      (r.video.length == cfg.D / cfg.step || r.video.length == 1)) then
    Except.ok recs
  else Except.error VecError.broadcastError

/-- Packing of the minor accumulator (lines 121-123): dtype
`[('', 'O'), ('', 'i8', _act_max_len), ('', 'i8')]`; the object field is
opaque, the action vector must fit width `_act_max_len`. -/
def packMinor (tp : TextParams) (recs : List MinorRec) :
    Except VecError (List MinorRec) :=
  if recs.all (fun r => fitsField tp.actMaxLen r.actVec) then
    Except.ok recs
  else Except.error VecError.broadcastError

/-- Contents of one cache artifact: the pickled `self.data` (major and
minor, already packed) followed by the pickled `self._i2i`. -/
structure DBFile where
  major : List MajorRec
  minor : List MinorRec
  i2i : List (Nat × Nat)
deriving DecidableEq

/-- Cache directory: association of cache keys (derived from the input
path stem) to stored artifacts. -/
def CacheFS : Type := List (Nat × DBFile)

/-- Look a cache artifact up by key (`(cache/self._save_db_as).exists()`
followed by the two `pickle.load`s). -/
def fsGet (fs : CacheFS) (key : Nat) : Option DBFile :=
  (fs.find? (fun p => p.1 == key)).map (fun p => p.2)

/-- Write a cache artifact (the two `pickle.dump`s); a later `fsGet` of the
same key sees the new contents. -/
def fsPut (fs : CacheFS) (key : Nat) (db : DBFile) : CacheFS :=
  (key, db) :: fs

/-- The in-memory dataset held by a constructed `LabeledVideoDataset`:
record collections, index map, the video transform, and whether this
instance ran extraction (`built = true`) or loaded the cache. -/
structure Dataset where
  major : List MajorRec
  minor : List MinorRec
  i2i : List (Nat × Nat)
  transform : List Nat → List Nat
  built : Bool

/-- Embedding of `LabeledVideoDataset.__init__` (lines 28-41): if the cache
artifact exists it is loaded verbatim and no extraction runs; otherwise the
database is prepared, packed, and persisted. A failure anywhere during
preparation or packing aborts construction and leaves the cache untouched. -/
def initDataset (fs : CacheFS) (key : Nat) (tp : TextParams) (cfg : Config)
    (transform : List Nat → List Nat) (rows : List (Nat × Sample)) :
    Except VecError Dataset × CacheFS :=
  match fsGet fs key with
  | some db => (Except.ok ⟨db.major, db.minor, db.i2i, transform, false⟩, fs)
  | none =>
    match prepareDatabase tp cfg rows with
    | Except.error e => (Except.error e, fs)
    | Except.ok st =>
      match packMajor tp cfg st.major, packMinor tp st.minor with
      | Except.ok mj, Except.ok mn =>
        (Except.ok ⟨mj, mn, st.i2i, transform, true⟩,
         fsPut fs key ⟨mj, mn, st.i2i⟩)
      | Except.error e, _ => (Except.error e, fs)
      | _, Except.error e => (Except.error e, fs)

/-- Structured sample returned by `__getitem__` (lines 46-57): the major
part with the transform applied to the video, and the minor part. -/
structure Item where
  label : EncOut
  lbllen : Int
  video : List Nat
  object : EncOut
  action : EncOut
  actlen : Nat

/-- Embedding of `__getitem__`: positional access; an out-of-range index
raises (`none`). -/
def getItem (ds : Dataset) (index : Nat) : Option Item :=
  match ds.major[index]?, ds.minor[index]? with
  | some mj, some mn =>
    some ⟨mj.lbl, mj.lblLen, ds.transform mj.video,
          mn.objVec, mn.actVec, mn.actLen⟩
  | _, _ => none

/-- `np.take` over a list of indices obtained from `dict.get`: a `None`
entry (unknown id) or an out-of-range position raises. -/
def npTake (recs : List α) (idxs : List (Option Nat)) : Option (List α) :=
  idxs.mapM (fun o => o.bind (fun i => recs[i]?))

/-- Embedding of `getById` (lines 59-66): resolve every requested id
through `_i2i.get`, then gather the major and minor records with
`np.take` (the `np.rec.array` wrappers preserve contents and are dropped). -/
def getById (ds : Dataset) (videoIds : List Nat) :
    Option (List MajorRec × List MinorRec) :=
  let ids := videoIds.map (dictGet ds.i2i)
  match npTake ds.major ids, npTake ds.minor ids with
  | some a, some b => some (a, b)
  | _, _ => none

/-- Metadata passed and full delivery achieved: the acceptance condition of
lines 102 and 106. -/
def acceptedSample (cfg : Config) (s : Sample) : Prop :=
  cfg.D ≤ s.metaFrames ∧
  (extractFrames s.stream (requiredOf cfg s)).2 = requiredOf cfg s

/-- Length of the slice helper: the retained count is the ceiling of
`(length - c) / k`. -/
theorem sliceEveryAux_length (k : Nat) (hk : 0 < k) (l : List α) :
    ∀ c : Nat, (sliceEveryAux k c l).length = (l.length - c + k - 1) / k := by
  induction l with
  | nil =>
    intro c
    simp only [sliceEveryAux, List.length_nil]
    rw [Nat.div_eq_of_lt (by omega)]
  | cons x xs ih =>
    intro c
    match c with
    | 0 =>
      simp only [sliceEveryAux, List.length_cons]
      rw [ih (k - 1)]
      rcases le_or_lt (k - 1) xs.length with hle | hlt
      · have h1 : xs.length - (k - 1) + k - 1 = xs.length := by omega
        have h2 : xs.length + 1 - 0 + k - 1 = xs.length + k := by omega
        rw [h1, h2, Nat.add_div_right _ hk]
      · have h1 : xs.length - (k - 1) + k - 1 = k - 1 := by omega
        have h2 : xs.length + 1 - 0 + k - 1 = xs.length + k := by omega
        rw [h1, h2, Nat.add_div_right _ hk, Nat.div_eq_of_lt (by omega),
            Nat.div_eq_of_lt (by omega)]
    | c + 1 =>
      simp only [sliceEveryAux, List.length_cons]
      rw [ih c]
      have h3 : xs.length + 1 - (c + 1) = xs.length - c := by omega
      rw [h3]

/-- Python slicing `l[::k]` keeps `ceil(len(l) / k)` elements. -/
theorem sliceEvery_length (k : Nat) (hk : 0 < k) (l : List α) :
    (sliceEvery k l).length = (l.length + k - 1) / k := by
  rw [sliceEvery, sliceEveryAux_length k hk l 0, Nat.sub_zero]

/-- Scaling numerator and denominator of a ceiling division by a common
positive factor does not change it. -/
theorem ceil_div_scale (a b m : Nat) (hb : 0 < b) (hm : 0 < m) :
    (a * m + b * m - 1) / (b * m) = (a + b - 1) / b := by
  have hbm : 0 < b * m := Nat.mul_pos hb hm
  rcases Nat.eq_zero_or_pos a with ha | ha
  · subst ha
    simp only [Nat.zero_mul, Nat.zero_add]
    rw [Nat.div_eq_of_lt (by omega), Nat.div_eq_of_lt (by omega)]
  · have key : (a * m - 1) / (b * m) = (a - 1) / b := by
      have hmod := Nat.div_add_mod (a - 1) b
      set q := (a - 1) / b with hq
      set r := (a - 1) % b with hr
      have hrb : r < b := Nat.mod_lt _ hb
      have ha' : a = b * q + r + 1 := by omega
      have hexp : (b * q + r + 1) * m = b * m * q + (r * m + m) := by ring
      have hnum : a * m - 1 = r * m + m - 1 + b * m * q := by
        rw [ha']
        omega
      have hlt : r * m + m - 1 < b * m := by
        have h1 : (r + 1) * m ≤ b * m := Nat.mul_le_mul_right m (by omega)
        have h2 : (r + 1) * m = r * m + m := by ring
        omega
      rw [hnum, Nat.add_mul_div_left _ _ hbm, Nat.div_eq_of_lt hlt, Nat.zero_add]
    have e1 : a * m + b * m - 1 = a * m - 1 + b * m := by
      have h4 : 1 ≤ a * m := Nat.mul_pos ha hm
      omega
    have e2 : a + b - 1 = a - 1 + b := by omega
    rw [e1, e2, Nat.add_div_right _ hbm, Nat.add_div_right _ hb, key]

/-- An Option-valued traversal fails as soon as one element fails. -/
theorem mapM_none_of_mem (f : α → Option β) (l : List α) (x : α)
    (hx : x ∈ l) (hfx : f x = none) : l.mapM f = none := by
  induction l with
  | nil => cases hx
  | cons a as ih =>
    rcases List.mem_cons.mp hx with rfl | hmem
    · rw [List.mapM_cons, hfx]
      rfl
    · cases hfa : f a with
      | none =>
        rw [List.mapM_cons, hfa]
        rfl
      | some v =>
        rw [List.mapM_cons, hfa, ih hmem]
        rfl

/-- Traversing a mapped list is traversing the composite. -/
theorem mapM_map_list (g : α → β) (f : β → Option γ) (l : List α) :
    (l.map g).mapM f = l.mapM (fun x => f (g x)) := by
  induction l with
  | nil => rfl
  | cons x xs ih => rw [List.map_cons, List.mapM_cons, List.mapM_cons, ih]

/-- Two successful Option-valued traversals compose into one traversal of
the bound composite. -/
theorem mapM_chain (g : α → Option β) (h : β → Option γ) :
    ∀ (l : List α) (ps : List β) (a : List γ),
      l.mapM g = some ps → ps.mapM h = some a →
      l.mapM (fun x => (g x).bind h) = some a := by
  intro l
  induction l with
  | nil =>
    intro ps a h1 h2
    rw [List.mapM_nil] at h1
    cases h1
    rw [List.mapM_nil] at h2
    cases h2
    rfl
  | cons x xs ih =>
    intro ps a h1 h2
    rw [List.mapM_cons] at h1
    cases hgx : g x with
    | none => rw [hgx] at h1; cases h1
    | some y =>
      rw [hgx] at h1
      cases hxs : xs.mapM g with
      | none => rw [hxs] at h1; cases h1
      | some ys =>
        rw [hxs] at h1
        cases h1
        rw [List.mapM_cons] at h2
        cases hhy : h y with
        | none => rw [hhy] at h2; cases h2
        | some z =>
          rw [hhy] at h2
          cases hys : ys.mapM h with
          | none => rw [hys] at h2; cases h2
          | some zs =>
            rw [hys] at h2
            cases h2
            rw [List.mapM_cons]
            have hx1 : (g x).bind h = some z := by rw [hgx, Option.some_bind, hhy]
            rw [hx1, ih ys zs hxs hys]
            rfl

/-- Pointwise provenance: every aligned pair of accumulated records is the
`_processSample` output, on its resampled frames, of one accepted sample
drawn from `samples`. -/
def recsFrom (tp : TextParams) (cfg : Config) (samples : List Sample)
    (st : PrepState) : Prop :=
  ∀ (k : Nat) (mj : MajorRec) (mn : MinorRec),
    st.major[k]? = some mj → st.minor[k]? = some mn →
    ∃ s, s ∈ samples ∧ acceptedSample cfg s ∧
      processSample tp (resampleOf cfg s) s = Except.ok (mn, mj)

/-- Invariant of the `_prepareDatabase` loop: the record accumulators stay
aligned with each other and with `new_index`, and their contents come from
accepted samples. -/
structure CoreInv (tp : TextParams) (cfg : Config) (samples : List Sample)
    (st : PrepState) : Prop where
  len_mm : st.major.length = st.minor.length
  len_idx : st.major.length = st.newIndex
  recs : recsFrom tp cfg samples st

/-- Provenance is monotone in the sample universe. -/
theorem recsFrom_mono (tp : TextParams) (cfg : Config)
    {s1 s2 : List Sample} (hsub : ∀ s ∈ s1, s ∈ s2) (st : PrepState)
    (h : recsFrom tp cfg s1 st) : recsFrom tp cfg s2 st :=
  fun k mj mn h1 h2 =>
    Exists.imp (fun s hs => ⟨hsub s hs.1, hs.2⟩) (h k mj mn h1 h2)

/-- One loop iteration preserves the core invariant, enlarging the sample
universe by the processed row. -/
theorem prepStep_core (tp : TextParams) (cfg : Config) (seen : List Sample)
    (st st' : PrepState) (row : Nat × Sample)
    (h : CoreInv tp cfg seen st)
    (hok : prepStep tp cfg st row = Except.ok st') :
    CoreInv tp cfg (seen ++ [row.2]) st' := by
  have hsub : ∀ s ∈ seen, s ∈ seen ++ [row.2] :=
    fun s hs => List.mem_append_left _ hs
  simp only [prepStep] at hok
  split at hok
  · injection hok with h1
    subst h1
    exact ⟨h.len_mm, h.len_idx, recsFrom_mono tp cfg hsub st h.recs⟩
  · rename_i hmeta
    split at hok
    · rename_i hcnt
      cases hps : processSample tp
          (sliceEvery (cfg.step * multiplierOf cfg row.2)
            (extractFrames row.2.stream (cfg.D * multiplierOf cfg row.2)).1)
          row.2 with
      | error e => rw [hps] at hok; cases hok
      | ok pr =>
        rw [hps] at hok
        injection hok with h1
        subst h1
        have hres : sliceEvery (cfg.step * multiplierOf cfg row.2)
            (extractFrames row.2.stream (cfg.D * multiplierOf cfg row.2)).1 =
            resampleOf cfg row.2 := rfl
        have hacc : acceptedSample cfg row.2 := ⟨Nat.le_of_not_lt hmeta, hcnt⟩
        refine ⟨by simp [h.len_mm], by simp [h.len_idx],
          fun k mj mn h1 h2 => ?_⟩
        have h1' : (st.major ++ [pr.2])[k]? = some mj := h1
        have h2' : (st.minor ++ [pr.1])[k]? = some mn := h2
        rcases lt_trichotomy k st.major.length with hk | hk | hk
        · rw [List.getElem?_append_left hk] at h1'
          rw [List.getElem?_append_left (h.len_mm ▸ hk)] at h2'
          obtain ⟨s, hs, ha, hp⟩ := h.recs k mj mn h1' h2'
          exact ⟨s, hsub s hs, ha, hp⟩
        · subst hk
          rw [List.getElem?_concat_length] at h1'
          rw [h.len_mm, List.getElem?_concat_length] at h2'
          injection h1' with h1'
          injection h2' with h2'
          subst h1'
          subst h2'
          refine ⟨row.2, List.mem_append_right _ (List.mem_singleton.mpr rfl),
            hacc, ?_⟩
          rw [← hres, hps]
        · rw [List.getElem?_eq_none (by simp; omega)] at h1'
          cases h1'
    · injection hok with h1
      subst h1
      refine ⟨h.len_mm, h.len_idx, fun k mj mn h1 h2 => ?_⟩
      obtain ⟨s, hs, ha, hp⟩ := h.recs k mj mn h1 h2
      exact ⟨s, hsub s hs, ha, hp⟩

/-- The whole loop preserves the core invariant. -/
theorem prepFold_core (tp : TextParams) (cfg : Config) :
    ∀ (rows : List (Nat × Sample)) (seen : List Sample) (st0 st : PrepState),
      CoreInv tp cfg seen st0 →
      rows.foldlM (prepStep tp cfg) st0 = Except.ok st →
      CoreInv tp cfg (seen ++ rows.map Prod.snd) st := by
  intro rows
  induction rows with
  | nil =>
    intro seen st0 st h hf
    rw [List.foldlM_nil] at hf
    injection hf with h1
    subst h1
    simpa using h
  | cons r rows ih =>
    intro seen st0 st h hf
    rw [List.foldlM_cons] at hf
    cases h1 : prepStep tp cfg st0 r with
    | error e => rw [h1] at hf; cases hf
    | ok st1 =>
      rw [h1] at hf
      have hf' : rows.foldlM (prepStep tp cfg) st1 = Except.ok st := hf
      have hstep := prepStep_core tp cfg seen st0 st1 r h h1
      have hres := ih (seen ++ [r.2]) st1 st hstep hf'
      simpa [List.append_assoc] using hres

/-- Inserting an unused key appends it to the dictionary. -/
theorem dictInsert_fresh (d : List (Nat × Nat)) (k v : Nat)
    (h : ∀ p ∈ d, p.1 ≠ k) : dictInsert d k v = d ++ [(k, v)] := by
  unfold dictInsert
  rw [if_neg]
  intro hc
  obtain ⟨p, hp, hpk⟩ := List.any_eq_true.mp hc
  exact h p hp (by simpa using hpk)

/-- Invariant of the index map `_i2i`: one entry per accepted record, each
key the id of a sample seen so far. -/
structure IdxInv (samples : List Sample) (st : PrepState) : Prop where
  len : st.i2i.length = st.newIndex
  keys : ∀ p ∈ st.i2i, ∃ s, s ∈ samples ∧ p.1 = s.id

/-- One loop iteration preserves the index map invariant provided the
processed id is fresh. -/
theorem prepStep_idx (tp : TextParams) (cfg : Config) (seen : List Sample)
    (st st' : PrepState) (row : Nat × Sample)
    (h : IdxInv seen st)
    (hfresh : ∀ s ∈ seen, s.id ≠ row.2.id)
    (hok : prepStep tp cfg st row = Except.ok st') :
    IdxInv (seen ++ [row.2]) st' := by
  have hsub : ∀ p ∈ st.i2i, ∃ s, s ∈ seen ++ [row.2] ∧ p.1 = s.id := by
    intro p hp
    obtain ⟨s, hs, hid⟩ := h.keys p hp
    exact ⟨s, List.mem_append_left _ hs, hid⟩
  simp only [prepStep] at hok
  split at hok
  · injection hok with h1
    subst h1
    exact ⟨h.len, hsub⟩
  · split at hok
    · cases hps : processSample tp
          (sliceEvery (cfg.step * multiplierOf cfg row.2)
            (extractFrames row.2.stream (cfg.D * multiplierOf cfg row.2)).1)
          row.2 with
      | error e => rw [hps] at hok; cases hok
      | ok pr =>
        rw [hps] at hok
        injection hok with h1
        subst h1
        have hnk : ∀ p ∈ st.i2i, p.1 ≠ row.2.id := by
          intro p hp heq
          obtain ⟨s, hs, hid⟩ := h.keys p hp
          exact hfresh s hs (hid ▸ heq)
        constructor
        · show (dictInsert st.i2i row.2.id st.newIndex).length = st.newIndex + 1
          rw [dictInsert_fresh st.i2i row.2.id st.newIndex hnk]
          simp [h.len]
        · show ∀ p ∈ dictInsert st.i2i row.2.id st.newIndex, _
          rw [dictInsert_fresh st.i2i row.2.id st.newIndex hnk]
          intro p hp
          rcases List.mem_append.mp hp with hp1 | hp2
          · exact hsub p hp1
          · refine ⟨row.2, List.mem_append_right _ (List.mem_singleton.mpr rfl), ?_⟩
            have : p = (row.2.id, st.newIndex) := List.mem_singleton.mp hp2
            rw [this]
    · injection hok with h1
      subst h1
      exact ⟨h.len, hsub⟩

/-- The whole loop preserves the index map invariant when the sample ids
are pairwise distinct. -/
theorem prepFold_idx (tp : TextParams) (cfg : Config) :
    ∀ (rows : List (Nat × Sample)) (seen : List Sample) (st0 st : PrepState),
      IdxInv seen st0 →
      ((seen ++ rows.map Prod.snd).map Sample.id).Nodup →
      rows.foldlM (prepStep tp cfg) st0 = Except.ok st →
      IdxInv (seen ++ rows.map Prod.snd) st := by
  intro rows
  induction rows with
  | nil =>
    intro seen st0 st h _ hf
    rw [List.foldlM_nil] at hf
    injection hf with h1
    subst h1
    simpa using h
  | cons r rows ih =>
    intro seen st0 st h hnd hf
    rw [List.foldlM_cons] at hf
    cases h1 : prepStep tp cfg st0 r with
    | error e => rw [h1] at hf; cases hf
    | ok st1 =>
      rw [h1] at hf
      have hf' : rows.foldlM (prepStep tp cfg) st1 = Except.ok st := hf
      have hmap : (seen.map Sample.id ++
          (r.2.id :: (rows.map Prod.snd).map Sample.id)).Nodup := by
        simpa using hnd
      have hfresh : ∀ s ∈ seen, s.id ≠ r.2.id := by
        intro s hs heq
        rcases List.nodup_append.mp hmap with ⟨_, _, hdisj⟩
        exact hdisj (List.mem_map_of_mem Sample.id hs)
          (by rw [heq]; exact List.mem_cons_self _ _)
      have hstep := prepStep_idx tp cfg seen st0 st1 r h hfresh h1
      have hnd' : (((seen ++ [r.2]) ++ rows.map Prod.snd).map Sample.id).Nodup := by
        simpa [List.append_assoc] using hnd
      have hres := ih (seen ++ [r.2]) st1 st hstep hnd' hf'
      simpa [List.append_assoc] using hres

/-- A freshly written cache artifact is found under its key. -/
theorem fsGet_fsPut (fs : CacheFS) (key : Nat) (db : DBFile) :
    fsGet (fsPut fs key db) key = some db := by
  unfold fsGet fsPut
  rw [List.find?_cons_of_pos _ (by simp)]
  rfl

/-- Successful packing returns the records unchanged. -/
theorem packMajor_ok (tp : TextParams) (cfg : Config)
    (recs out : List MajorRec) (h : packMajor tp cfg recs = Except.ok out) :
    out = recs := by
  unfold packMajor at h
  split at h
  · injection h with h1
    exact h1.symm
  · cases h

/-- Successful packing returns the records unchanged. -/
theorem packMinor_ok (tp : TextParams) (recs out : List MinorRec)
    (h : packMinor tp recs = Except.ok out) : out = recs := by
  unfold packMinor at h
  split at h
  · injection h with h1
    exact h1.symm
  · cases h

/-- With the cache artifact present, construction loads it verbatim and
runs no extraction. -/
theorem initDataset_load (fs : CacheFS) (key : Nat) (tp : TextParams)
    (cfg : Config) (tr : List Nat → List Nat) (rows : List (Nat × Sample))
    (db : DBFile) (hdb : fsGet fs key = some db) :
    initDataset fs key tp cfg tr rows =
      (Except.ok ⟨db.major, db.minor, db.i2i, tr, false⟩, fs) := by
  unfold initDataset
  rw [hdb]

/-- A preparation failure aborts construction and writes nothing. -/
theorem initDataset_prepError (fs : CacheFS) (key : Nat) (tp : TextParams)
    (cfg : Config) (tr : List Nat → List Nat) (rows : List (Nat × Sample))
    (e : VecError)
    (hmiss : fsGet fs key = none)
    (hprep : prepareDatabase tp cfg rows = Except.error e) :
    initDataset fs key tp cfg tr rows = (Except.error e, fs) := by
  unfold initDataset
  rw [hmiss, hprep]

/-- Destructuring a successful fresh build: the dataset is the prepared,
packed state, and exactly it was persisted. -/
theorem initDataset_build (fs : CacheFS) (key : Nat) (tp : TextParams)
    (cfg : Config) (tr : List Nat → List Nat) (rows : List (Nat × Sample))
    (ds : Dataset) (fs' : CacheFS)
    (hmiss : fsGet fs key = none)
    (hinit : initDataset fs key tp cfg tr rows = (Except.ok ds, fs')) :
    ∃ st, prepareDatabase tp cfg rows = Except.ok st ∧
      ds.major = st.major ∧ ds.minor = st.minor ∧ ds.i2i = st.i2i ∧
      packMajor tp cfg st.major = Except.ok st.major ∧
      packMinor tp st.minor = Except.ok st.minor ∧
      ds.transform = tr ∧ ds.built = true ∧
      fs' = fsPut fs key ⟨st.major, st.minor, st.i2i⟩ := by
  cases hprep : prepareDatabase tp cfg rows with
  | error e =>
    rw [initDataset_prepError fs key tp cfg tr rows e hmiss hprep] at hinit
    simp at hinit
  | ok st =>
    cases hpj : packMajor tp cfg st.major with
    | error e =>
      simp only [initDataset, hmiss, hprep, hpj] at hinit
      simp at hinit
    | ok mj =>
      cases hpn : packMinor tp st.minor with
      | error e =>
        simp only [initDataset, hmiss, hprep, hpj, hpn] at hinit
        simp at hinit
      | ok mn =>
        simp only [initDataset, hmiss, hprep, hpj, hpn, Prod.mk.injEq,
          Except.ok.injEq] at hinit
        obtain ⟨hds, hfs⟩ := hinit
        subst hds
        have hmj := packMajor_ok tp cfg st.major mj hpj
        have hmn := packMinor_ok tp st.minor mn hpn
        subst hmj
        subst hmn
        exact ⟨st, rfl, rfl, rfl, rfl, hpj, hpn, rfl, rfl, hfs.symm⟩

/-- Shape of a successful `_processSample` run: the record fields are the
stored frames, the action token count, and the derived label length. -/
theorem processSample_ok_shape (tp : TextParams) (frames : List Nat)
    (s : Sample) (mn : MinorRec) (mj : MajorRec)
    (h : processSample tp frames s = Except.ok (mn, mj)) :
    mj.video = frames ∧ mn.actLen = s.act.length ∧
    mj.lblLen = (s.act.length : Int) + (s.obj.length : Int) - 1 := by
  simp only [processSample] at h
  cases h1 : sen2vec tp s.obj tp.mode with
  | error e =>
    rw [h1] at h
    have h' : (Except.error e : Except VecError (MinorRec × MajorRec)) =
        Except.ok (mn, mj) := h
    cases h'
  | ok ov =>
    rw [h1] at h
    cases h2 : sen2vec tp s.act Mode.action with
    | error e =>
      rw [h2] at h
      have h' : (Except.error e : Except VecError (MinorRec × MajorRec)) =
          Except.ok (mn, mj) := h
      cases h'
    | ok av =>
      rw [h2] at h
      cases h3 : sen2vec tp s.label Mode.label with
      | error e =>
        rw [h3] at h
        have h' : (Except.error e : Except VecError (MinorRec × MajorRec)) =
            Except.ok (mn, mj) := h
        cases h'
      | ok lv =>
        rw [h3] at h
        have h' : Except.ok ((⟨ov, av, s.act.length⟩ : MinorRec),
            (⟨lv, (s.act.length : Int) + (s.obj.length : Int) - 1,
              frames⟩ : MajorRec)) = Except.ok (mn, mj) := h
        injection h' with h'
        injection h' with hmn hmj
        subst hmn
        subst hmj
        exact ⟨rfl, rfl, rfl⟩

/-- C10: for every accepted record, the stored label length equals the
stored action length plus the object token count minus one, with the
object and action lengths being the token counts of the clip's object and
action phrases (`lbl_len = act_len + obj_len - 1`, lines 155-157). -/
theorem C10_label_length (tp : TextParams) (frames : List Nat) (s : Sample)
    (mn : MinorRec) (mj : MajorRec)
    (h : processSample tp frames s = Except.ok (mn, mj)) :
    mj.lblLen = (mn.actLen : Int) + (s.obj.length : Int) - 1 ∧
    mn.actLen = s.act.length := by
  obtain ⟨_, hact, hlen⟩ := processSample_ok_shape tp frames s mn mj h
  refine ⟨?_, hact⟩
  rw [hact]
  exact hlen

def tpC10 : TextParams := ⟨[(1, 4)], 2, 2, Mode.simple⟩

def sC10 : Sample := ⟨3, [1], [1], [1], 4, [9, 9, 9, 9]⟩

/-- Witness for C10 at a concrete accepted record. -/
theorem C10_label_length_witness :
    ∃ mn mj, processSample tpC10 [9, 9] sC10 = Except.ok (mn, mj) ∧
      mj.lblLen = (mn.actLen : Int) + (sC10.obj.length : Int) - 1 ∧
      mn.actLen = sC10.act.length := by
  have h : processSample tpC10 [9, 9] sC10 =
      Except.ok (⟨EncOut.arr [4], EncOut.arr [4, 0], 1⟩,
        ⟨EncOut.arr [4, 0], 1, [9, 9]⟩) := rfl
  exact ⟨_, _, h, C10_label_length tpC10 [9, 9] sC10 _ _ h⟩

def tpC2 : TextParams := ⟨[(1, 4)], 2, 2, Mode.simple⟩

def sC2 : Sample := ⟨9, [1], [1], [1], 8, [0, 1, 2, 3, 4, 5, 6]⟩

/-- C2: a clip whose metadata promises 8 frames (depth 4, multiplier 2)
but whose decode delivers only 7 is excluded from both record
accumulators and the index map, the corrupted counter is incremented, and
the provisional multiplier is popped — but the source sample table `df`
still contains the clip's row afterwards, because line 115 discards the
value returned by `self.df.drop(old_index)`. -/
theorem C2_truncated_rollback_leaves_df_row :
    prepareDatabase tpC2 ⟨4, 2⟩ [(0, sC2)] =
      Except.ok ⟨[], [], [], 0, 1, [], [(0, sC2)]⟩ := by rfl

def tpC3 : TextParams := ⟨[(1, 2)], 4, 4, Mode.simple⟩

def cfgC3 : Config := ⟨4, 1⟩

def rowsC3 : List (Nat × Sample) :=
  [(0, ⟨1, [1], [1], [1], 10, [0, 1, 2, 3, 4, 5, 6]⟩),
   (1, ⟨2, [1], [1], [1], 40, List.range 40⟩),
   (2, ⟨3, [1], [1], [1], 3, [0, 1, 2]⟩)]

/-- C3 counterexample: in the claim's scenario (native counts [10, 40, 3],
depth 4, step 1, clip 1's decode truncated at 7 frames) the code accepts
one clip but reports a rejection count of 1, not the claimed 2: the
short-clip `continue` on line 102 does not touch the `corrupted` counter. -/
theorem C3_counterexample :
    (prepareDatabase tpC3 cfgC3 rowsC3).map
      (fun st => (st.major.length, st.corrupted)) = Except.ok (1, 1) ∧
    (1 : Nat) ≠ 2 := ⟨rfl, by decide⟩

/-- C3 amended: a clip whose metadata frame count is below the depth is
skipped with the loop state completely unchanged — excluded before any
decode, absent from records and index map, and NOT added to the rejection
count; in the scenario the accepted count is 1 and the reported rejection
count is 1 (only the truncated clip). -/
theorem C3_short_clip_skipped_uncounted :
    (∀ (tp : TextParams) (cfg : Config) (st : PrepState)
        (row : Nat × Sample), row.2.metaFrames < cfg.D →
        prepStep tp cfg st row = Except.ok st) ∧
    (prepareDatabase tpC3 cfgC3 rowsC3).map
      (fun st => (st.major.length, st.corrupted, st.i2i)) =
      Except.ok (1, 1, [(2, 0)]) := by
  constructor
  · intro tp cfg st row h
    simp only [prepStep]
    rw [if_pos h]
  · rfl

/-- Witness for C3: the scenario's short clip (3 native frames, depth 4)
leaves the initial state untouched. -/
theorem C3_short_clip_witness :
    prepStep tpC3 cfgC3 (initPrepState rowsC3)
      (2, ⟨3, [1], [1], [1], 3, [0, 1, 2]⟩) =
      Except.ok (initPrepState rowsC3) :=
  C3_short_clip_skipped_uncounted.1 tpC3 cfgC3 (initPrepState rowsC3)
    (2, ⟨3, [1], [1], [1], 3, [0, 1, 2]⟩) (by decide)

def tpC4 : TextParams := ⟨[(1, 5)], 4, 2, Mode.simple⟩

/-- C4: with global max label length 4 and global max action length 2,
`sen2vec` pads a label-mode sequence to width 2 and an action-mode
sequence to width 4 — the line 83 conditional selects `_max_len` for mode
'action' and `_act_max_len` for mode 'label', swapped relative to the
claim and to the packing dtype of lines 119-123, whose label field
(width `_max_len`) then rejects the produced label vector. -/
theorem C4_padding_maxima_swapped :
    sen2vec tpC4 [1] Mode.label = Except.ok (EncOut.arr [5, 0]) ∧
    sen2vec tpC4 [1] Mode.action = Except.ok (EncOut.arr [5, 0, 0, 0]) ∧
    packMajor tpC4 ⟨4, 2⟩ [⟨EncOut.arr [5, 0], 1, [9, 9]⟩] =
      Except.error VecError.broadcastError := ⟨rfl, rfl, rfl⟩

def tpC1 : TextParams := ⟨[(1, 3)], 3, 3, Mode.simple⟩

def cfgC1 : Config := ⟨5, 2⟩

def sC1 : Sample := ⟨7, [1], [1], [1], 5, [10, 11, 12, 13, 14]⟩

/-- C1 counterexample: with depth 5 and step 2, the accepted clip's video
stored in the major record has temporal length 3 (indices 0, 2, 4 of the
5 decoded frames), while `depth // step = 2`: the stored temporal length
is the ceiling of `depth / step`, not the claimed floor. -/
theorem C1_counterexample :
    (prepareDatabase tpC1 cfgC1 [(0, sC1)]).map
      (fun st => st.major.map (fun r => r.video.length)) = Except.ok [3] ∧
    cfgC1.D / cfgC1.step = 2 ∧ (3 : Nat) ≠ 2 := ⟨rfl, rfl, by decide⟩

/-- C1 amended: for every accepted clip the computed multiplier is
`floor(nativeFrameCount / depth)` and at least 1, and the temporal length
of the resampled video stored in the major record is the integer ceiling
`(depth + step - 1) / step` — equal to `depth // step` exactly when `step`
divides `depth` — independent of the clip's native frame count. -/
theorem C1_multiplier_and_resample_length (tp : TextParams) (cfg : Config)
    (rows : List (Nat × Sample)) (st : PrepState) (k : Nat) (mj : MajorRec)
    (hD : 0 < cfg.D) (hstep : 0 < cfg.step)
    (h : prepareDatabase tp cfg rows = Except.ok st)
    (hmj : st.major[k]? = some mj) :
    ∃ s, s ∈ rows.map Prod.snd ∧ cfg.D ≤ s.metaFrames ∧
      multiplierOf cfg s = s.metaFrames / cfg.D ∧
      1 ≤ multiplierOf cfg s ∧
      mj.video = resampleOf cfg s ∧
      mj.video.length = (cfg.D + cfg.step - 1) / cfg.step := by
  have hinv := prepFold_core tp cfg rows [] (initPrepState rows) st
    ⟨rfl, rfl, fun k' mj' mn' h1 _ => by cases h1⟩ h
  have hk : k < st.major.length := by
    by_contra hk
    rw [List.getElem?_eq_none (Nat.le_of_not_lt hk)] at hmj
    cases hmj
  have hk' : k < st.minor.length := hinv.len_mm ▸ hk
  obtain ⟨s, hs, hacc, hps⟩ :=
    hinv.recs k mj (st.minor[k]) hmj (List.getElem?_eq_getElem hk')
  obtain ⟨hvid, _, _⟩ :=
    processSample_ok_shape tp (resampleOf cfg s) s (st.minor[k]) mj hps
  have hm1 : 1 ≤ multiplierOf cfg s :=
    (Nat.one_le_div_iff hD).mpr hacc.1
  refine ⟨s, hs, hacc.1, rfl, hm1, hvid, ?_⟩
  have hkpos : 0 < cfg.step * multiplierOf cfg s := Nat.mul_pos hstep hm1
  have htake : (s.stream.take (requiredOf cfg s)).length = requiredOf cfg s :=
    hacc.2
  rw [hvid]
  unfold resampleOf extractFrames
  rw [sliceEvery_length _ hkpos, htake]
  unfold requiredOf
  rw [ceil_div_scale cfg.D cfg.step (multiplierOf cfg s) hstep hm1]

def stC1 : PrepState :=
  ⟨[⟨EncOut.arr [3, 0, 0], 1, [10, 12, 14]⟩],
   [⟨EncOut.arr [3], EncOut.arr [3, 0, 0], 1⟩],
   [(7, 0)], 1, 0, [1], [(0, sC1)]⟩

/-- Witness for C1 on the one-clip dataset with depth 5, step 2. -/
theorem C1_multiplier_and_resample_length_witness :
    ∃ s, s ∈ ([(0, sC1)].map Prod.snd) ∧ cfgC1.D ≤ s.metaFrames ∧
      multiplierOf cfgC1 s = s.metaFrames / cfgC1.D ∧
      1 ≤ multiplierOf cfgC1 s ∧
      (⟨EncOut.arr [3, 0, 0], 1, [10, 12, 14]⟩ : MajorRec).video =
        resampleOf cfgC1 s ∧
      (⟨EncOut.arr [3, 0, 0], 1, [10, 12, 14]⟩ : MajorRec).video.length =
        (cfgC1.D + cfgC1.step - 1) / cfgC1.step :=
  C1_multiplier_and_resample_length tpC1 cfgC1 [(0, sC1)] stC1 0
    ⟨EncOut.arr [3, 0, 0], 1, [10, 12, 14]⟩
    (by decide) (by decide) rfl rfl

/-- C5: building against an absent cache marks the instance as built and
persists the packed dataset; constructing again against the same cache
path (any parameters) performs no extraction — the cache is loaded, the
instance is not marked built — and yields record collections and an index
map identical by value to the in-memory pre-persist state, without
rewriting the cache. -/
theorem C5_cache_roundtrip (fs : CacheFS) (key : Nat) (tp : TextParams)
    (cfg : Config) (tr : List Nat → List Nat) (rows : List (Nat × Sample))
    (ds : Dataset) (fs' : CacheFS)
    (hmiss : fsGet fs key = none)
    (hinit : initDataset fs key tp cfg tr rows = (Except.ok ds, fs')) :
    ds.built = true ∧
    ∀ (tr2 : List Nat → List Nat) (tp2 : TextParams) (cfg2 : Config)
      (rows2 : List (Nat × Sample)), ∃ ds2,
      initDataset fs' key tp2 cfg2 tr2 rows2 = (Except.ok ds2, fs') ∧
      ds2.built = false ∧ ds2.major = ds.major ∧ ds2.minor = ds.minor ∧
      ds2.i2i = ds.i2i := by
  obtain ⟨st, _, hmaj, hmin, hi2i, _, _, _, hbuilt, hfs⟩ :=
    initDataset_build fs key tp cfg tr rows ds fs' hmiss hinit
  refine ⟨hbuilt, fun tr2 tp2 cfg2 rows2 => ?_⟩
  subst hfs
  refine ⟨⟨st.major, st.minor, st.i2i, tr2, false⟩, ?_, rfl, hmaj.symm,
    hmin.symm, hi2i.symm⟩
  exact initDataset_load _ key tp2 cfg2 tr2 rows2 _
    (fsGet_fsPut fs key ⟨st.major, st.minor, st.i2i⟩)

def tpC6 : TextParams := ⟨[(1, 4)], 2, 2, Mode.simple⟩

def cfgC6 : Config := ⟨4, 2⟩

def sC6 : Sample := ⟨5, [1], [1], [1], 4, [10, 11, 12, 13]⟩

def rowsC6 : List (Nat × Sample) := [(0, sC6)]

def dbC6 : DBFile :=
  ⟨[⟨EncOut.arr [4, 0], 1, [10, 12]⟩],
   [⟨EncOut.arr [4], EncOut.arr [4, 0], 1⟩], [(5, 0)]⟩

def dsC6 : Dataset :=
  ⟨[⟨EncOut.arr [4, 0], 1, [10, 12]⟩],
   [⟨EncOut.arr [4], EncOut.arr [4, 0], 1⟩], [(5, 0)], id, true⟩

/-- Witness for C5 on a one-clip dataset built into an empty cache. -/
theorem C5_cache_roundtrip_witness :
    dsC6.built = true ∧
    ∀ (tr2 : List Nat → List Nat) (tp2 : TextParams) (cfg2 : Config)
      (rows2 : List (Nat × Sample)), ∃ ds2,
      initDataset [(0, dbC6)] 0 tp2 cfg2 tr2 rows2 =
        (Except.ok ds2, [(0, dbC6)]) ∧
      ds2.built = false ∧ ds2.major = dsC6.major ∧ ds2.minor = dsC6.minor ∧
      ds2.i2i = dsC6.i2i :=
  C5_cache_roundtrip [] 0 tpC6 cfgC6 id rowsC6 dsC6 [(0, dbC6)] rfl rfl

/-- C6: after a successful fresh construction with pairwise-distinct clip
ids, the record collections and the index map have equal lengths, aligned
records at every position come from one and the same sample (so no sample
can end up in only one collection), and the persisted artifact reloads to
exactly these collections, so a cache-loaded instance satisfies the same
invariant. -/
theorem C6_parallel_collections (fs : CacheFS) (key : Nat) (tp : TextParams)
    (cfg : Config) (tr : List Nat → List Nat) (rows : List (Nat × Sample))
    (ds : Dataset) (fs' : CacheFS)
    (hmiss : fsGet fs key = none)
    (hnd : ((rows.map Prod.snd).map Sample.id).Nodup)
    (hinit : initDataset fs key tp cfg tr rows = (Except.ok ds, fs')) :
    ds.major.length = ds.minor.length ∧ ds.minor.length = ds.i2i.length ∧
    (∀ (k : Nat) (mj : MajorRec) (mn : MinorRec),
      ds.major[k]? = some mj → ds.minor[k]? = some mn →
      ∃ s, s ∈ rows.map Prod.snd ∧
        processSample tp (resampleOf cfg s) s = Except.ok (mn, mj)) ∧
    (∀ (tr2 : List Nat → List Nat) (tp2 : TextParams) (cfg2 : Config)
        (rows2 : List (Nat × Sample)),
      initDataset fs' key tp2 cfg2 tr2 rows2 =
        (Except.ok ⟨ds.major, ds.minor, ds.i2i, tr2, false⟩, fs')) := by
  obtain ⟨st, hprep, hmaj, hmin, hi2i, _, _, _, _, hfs⟩ :=
    initDataset_build fs key tp cfg tr rows ds fs' hmiss hinit
  have hcore := prepFold_core tp cfg rows [] (initPrepState rows) st
    ⟨rfl, rfl, fun k' mj' mn' h1 _ => by cases h1⟩ hprep
  have hidx := prepFold_idx tp cfg rows [] (initPrepState rows) st
    ⟨rfl, fun p hp => absurd hp (List.not_mem_nil p)⟩ hnd hprep
  rw [hmaj, hmin, hi2i]
  refine ⟨hcore.len_mm, ?_, ?_, ?_⟩
  · rw [← hcore.len_mm, hcore.len_idx, hidx.len]
  · intro k mj mn h1 h2
    obtain ⟨s, hs, _, hps⟩ := hcore.recs k mj mn h1 h2
    exact ⟨s, hs, hps⟩
  · intro tr2 tp2 cfg2 rows2
    subst hfs
    exact initDataset_load _ key tp2 cfg2 tr2 rows2 _
      (fsGet_fsPut fs key ⟨st.major, st.minor, st.i2i⟩)

/-- Witness for C6 on a one-clip dataset built into an empty cache. -/
theorem C6_parallel_collections_witness :
    dsC6.major.length = dsC6.minor.length ∧
    dsC6.minor.length = dsC6.i2i.length ∧
    (∀ (k : Nat) (mj : MajorRec) (mn : MinorRec),
      dsC6.major[k]? = some mj → dsC6.minor[k]? = some mn →
      ∃ s, s ∈ rowsC6.map Prod.snd ∧
        processSample tpC6 (resampleOf cfgC6 s) s = Except.ok (mn, mj)) ∧
    (∀ (tr2 : List Nat → List Nat) (tp2 : TextParams) (cfg2 : Config)
        (rows2 : List (Nat × Sample)),
      initDataset [(0, dbC6)] 0 tp2 cfg2 tr2 rows2 =
        (Except.ok ⟨dsC6.major, dsC6.minor, dsC6.i2i, tr2, false⟩,
         [(0, dbC6)])) :=
  C6_parallel_collections [] 0 tpC6 cfgC6 id rowsC6 dsC6 [(0, dbC6)]
    rfl (by decide) rfl

def dsC7x : Dataset :=
  ⟨[⟨EncOut.arr [1], 0, [5]⟩], [⟨EncOut.scal 1, EncOut.arr [1], 1⟩],
   [(3, 0)], fun v => 0 :: v, true⟩

/-- C7 counterexample: with a non-identity video transform configured,
`getById([id])` returns the stored video `[5]` while positional access at
`indexMap[id] = 0` returns the transformed video `[0, 5]`: the batched
access does not return the same record contents as positional access. -/
theorem C7_counterexample :
    (getById dsC7x [3]).map (fun p => p.1.map (fun r => r.video)) =
      some [[5]] ∧
    (getItem dsC7x 0).map (fun it => it.video) = some [0, 5] ∧
    ([[5]] : List (List Nat)) ≠ [[0, 5]] := ⟨rfl, rfl, by decide⟩

/-- C7 amended: when every requested id resolves through the index map,
`getById` returns exactly the stored major/minor records at the resolved
positions, in the caller's requested order; for a single id, positional
access at the resolved position returns the same label, label length,
object, action and action length, but applies the configured transform to
the video field (so the contents coincide whenever the transform is the
identity). -/
theorem C7_getById_resolves (ds : Dataset) (ids ps : List Nat)
    (a : List MajorRec) (b : List MinorRec)
    (hres : ids.mapM (dictGet ds.i2i) = some ps)
    (ha : ps.mapM (fun p => ds.major[p]?) = some a)
    (hb : ps.mapM (fun p => ds.minor[p]?) = some b) :
    getById ds ids = some (a, b) ∧
    ∀ (vid p : Nat) (mj : MajorRec) (mn : MinorRec),
      dictGet ds.i2i vid = some p →
      ds.major[p]? = some mj → ds.minor[p]? = some mn →
      getById ds [vid] = some ([mj], [mn]) ∧
      getItem ds p = some ⟨mj.lbl, mj.lblLen, ds.transform mj.video,
        mn.objVec, mn.actVec, mn.actLen⟩ := by
  have hA : npTake ds.major (ids.map (dictGet ds.i2i)) = some a := by
    unfold npTake
    rw [mapM_map_list]
    exact mapM_chain (dictGet ds.i2i) (fun i => ds.major[i]?) ids ps a hres ha
  have hB : npTake ds.minor (ids.map (dictGet ds.i2i)) = some b := by
    unfold npTake
    rw [mapM_map_list]
    exact mapM_chain (dictGet ds.i2i) (fun i => ds.minor[i]?) ids ps b hres hb
  constructor
  · simp only [getById]
    rw [hA, hB]
  · intro vid p mj mn hvp hmj hmn
    constructor
    · have h1 : npTake ds.major ([vid].map (dictGet ds.i2i)) = some [mj] := by
        simp only [npTake, List.map_cons, List.map_nil, List.mapM_cons,
          List.mapM_nil, hvp, Option.some_bind, hmj]
        rfl
      have h2 : npTake ds.minor ([vid].map (dictGet ds.i2i)) = some [mn] := by
        simp only [npTake, List.map_cons, List.map_nil, List.mapM_cons,
          List.mapM_nil, hvp, Option.some_bind, hmn]
        rfl
      simp only [getById]
      rw [h1, h2]
    · unfold getItem
      rw [hmj, hmn]

/-- Witness for C7 on a one-clip dataset with the identity transform. -/
theorem C7_getById_resolves_witness :
    (getById dsC6 [5] = some ([⟨EncOut.arr [4, 0], 1, [10, 12]⟩],
      [⟨EncOut.arr [4], EncOut.arr [4, 0], 1⟩])) ∧
    (getById dsC6 [5] = some ([⟨EncOut.arr [4, 0], 1, [10, 12]⟩],
      [⟨EncOut.arr [4], EncOut.arr [4, 0], 1⟩]) ∧
     getItem dsC6 0 = some ⟨EncOut.arr [4, 0], 1, id [10, 12],
       EncOut.arr [4], EncOut.arr [4, 0], 1⟩) :=
  ⟨(C7_getById_resolves dsC6 [5] [0] [⟨EncOut.arr [4, 0], 1, [10, 12]⟩]
      [⟨EncOut.arr [4], EncOut.arr [4, 0], 1⟩] rfl rfl rfl).1,
   (C7_getById_resolves dsC6 [5] [0] [⟨EncOut.arr [4, 0], 1, [10, 12]⟩]
      [⟨EncOut.arr [4], EncOut.arr [4, 0], 1⟩] rfl rfl rfl).2 5 0
      ⟨EncOut.arr [4, 0], 1, [10, 12]⟩
      ⟨EncOut.arr [4], EncOut.arr [4, 0], 1⟩ rfl rfl rfl⟩

/-- C8: if any requested id is absent from the index map, `getById` fails
outright (the gather over the unresolved `None` index raises) rather than
silently skipping the id or reordering results; the operation reads the
dataset and returns no modified state. -/
theorem C8_unknown_id (ds : Dataset) (ids : List Nat) (vid : Nat)
    (hmem : vid ∈ ids) (hmiss : dictGet ds.i2i vid = none) :
    getById ds ids = none := by
  have hA : npTake ds.major (ids.map (dictGet ds.i2i)) = none := by
    unfold npTake
    rw [mapM_map_list]
    refine mapM_none_of_mem _ ids vid hmem ?_
    show (dictGet ds.i2i vid).bind (fun i => ds.major[i]?) = none
    rw [hmiss]
    rfl
  simp only [getById]
  rw [hA]

/-- Witness for C8: an id outside the one-clip index map fails. -/
theorem C8_unknown_id_witness : getById dsC6 [99] = none :=
  C8_unknown_id dsC6 [99] 99 (by decide) rfl

def tpC9x : TextParams := ⟨[(1, 4)], 1, 1, Mode.toy⟩

def cfgC9x : Config := ⟨2, 2⟩

def sC9x : Sample := ⟨7, [1], [1, 2], [1], 2, [20, 21]⟩

def dbC9x : DBFile :=
  ⟨[⟨EncOut.arr [4], 2, [20]⟩], [⟨EncOut.scal 4, EncOut.arr [4], 1⟩],
   [(7, 0)]⟩

/-- C9 counterexample: token 2 of the object sequence has no vocabulary
entry, yet under the default 'toy' object mode only the first object
token is looked up, so vectorization succeeds, construction completes,
and a cache artifact is persisted. -/
theorem C9_counterexample :
    dictGet tpC9x.t2i 2 = none ∧ 2 ∈ sC9x.obj ∧
    ∃ ds, initDataset [] 0 tpC9x cfgC9x id [(0, sC9x)] =
      (Except.ok ds, [(0, dbC9x)]) :=
  ⟨rfl, by decide, ⟨⟨dbC9x.major, dbC9x.minor, dbC9x.i2i, id, true⟩, rfl⟩⟩

/-- Token lookup over a sequence containing an unmapped token fails with
the first missing token's `KeyError`. -/
theorem lookup_mapM_error (tp : TextParams) (sen : List Nat) (w : Nat)
    (hw : w ∈ sen) (hmiss : dictGet tp.t2i w = none) :
    ∃ w', dictGet tp.t2i w' = none ∧
      sen.mapM (fun w =>
        match dictGet tp.t2i w with
        | none => Except.error (VecError.missingVocab w)
        | some n => Except.ok n) =
        Except.error (VecError.missingVocab w') := by
  induction sen with
  | nil => cases hw
  | cons a as ih =>
    cases ha : dictGet tp.t2i a with
    | none =>
      refine ⟨a, ha, ?_⟩
      rw [List.mapM_cons]
      simp only [ha]
      rfl
    | some v =>
      have hwa : w ∈ as := by
        rcases List.mem_cons.mp hw with rfl | h
        · rw [ha] at hmiss
          cases hmiss
        · exact h
      obtain ⟨w', hw', hmapM⟩ := ih hwa
      refine ⟨w', hw', ?_⟩
      rw [List.mapM_cons]
      simp only [ha, hmapM]
      rfl

/-- C9 amended: a vocabulary-missing token that vectorization actually
consumes — the first token in 'toy' mode, any token otherwise — makes
`sen2vec` fail with the missing-entry condition; and any `_processSample`
failure at a metadata-accepted, fully delivered clip propagates: the
whole preparation aborts with that error and construction persists no
cache artifact. -/
theorem C9_missing_vocab_aborts :
    (∀ (tp : TextParams) (sen : List Nat) (mode : Mode) (w : Nat),
        (mode = Mode.toy → sen.head? = some w) →
        (mode ≠ Mode.toy → w ∈ sen) →
        dictGet tp.t2i w = none →
        ∃ w', sen2vec tp sen mode =
          Except.error (VecError.missingVocab w')) ∧
    (∀ (fs : CacheFS) (key : Nat) (tp : TextParams) (cfg : Config)
        (tr : List Nat → List Nat) (rows0 rest : List (Nat × Sample))
        (i : Nat) (s : Sample) (st0 : PrepState) (e : VecError),
        fsGet fs key = none →
        rows0.foldlM (prepStep tp cfg)
          (initPrepState (rows0 ++ (i, s) :: rest)) = Except.ok st0 →
        cfg.D ≤ s.metaFrames →
        cfg.D * multiplierOf cfg s ≤ s.stream.length →
        processSample tp (resampleOf cfg s) s = Except.error e →
        prepareDatabase tp cfg (rows0 ++ (i, s) :: rest) = Except.error e ∧
        initDataset fs key tp cfg tr (rows0 ++ (i, s) :: rest) =
          (Except.error e, fs)) := by
  constructor
  · intro tp sen mode w htoy hmem hmiss
    by_cases hm : mode = Mode.toy
    · subst hm
      cases sen with
      | nil => cases htoy rfl
      | cons a as =>
        have ha : a = w := by
          have h2 : some a = some w := htoy rfl
          exact Option.some.inj h2
        subst ha
        refine ⟨a, ?_⟩
        have hred : sen2vec tp (a :: as) Mode.toy =
            (match dictGet tp.t2i a with
             | none => Except.error (VecError.missingVocab a)
             | some n => Except.ok (EncOut.scal n)) := rfl
        rw [hred, hmiss]
    · obtain ⟨w', _, hmapM⟩ := lookup_mapM_error tp sen w (hmem hm) hmiss
      refine ⟨w', ?_⟩
      simp only [sen2vec, if_neg hm]
      rw [hmapM]
      rfl
  · intro fs key tp cfg tr rows0 rest i s st0 e hmiss hpre hmeta hstream hfail
    have hstep : prepStep tp cfg st0 (i, s) = Except.error e := by
      simp only [prepStep]
      rw [if_neg (Nat.not_lt.mpr hmeta)]
      have hcnt : (extractFrames s.stream (cfg.D * multiplierOf cfg s)).2 =
          cfg.D * multiplierOf cfg s := by
        simp only [extractFrames, List.length_take]
        exact Nat.min_eq_left hstream
      rw [if_pos hcnt]
      have hres : sliceEvery (cfg.step * multiplierOf cfg s)
          (extractFrames s.stream (cfg.D * multiplierOf cfg s)).1 =
          resampleOf cfg s := rfl
      rw [hres, hfail]
      rfl
    have hprep : prepareDatabase tp cfg (rows0 ++ (i, s) :: rest) =
        Except.error e := by
      unfold prepareDatabase
      rw [List.foldlM_append, hpre]
      have h1 : ((i, s) :: rest).foldlM (prepStep tp cfg) st0 =
          Except.error e := by
        rw [List.foldlM_cons, hstep]
        rfl
      exact h1
    exact ⟨hprep,
      initDataset_prepError fs key tp cfg tr _ e hmiss hprep⟩

def tpC9 : TextParams := ⟨[(1, 4)], 1, 1, Mode.simple⟩

def cfgC9 : Config := ⟨2, 2⟩

def sC9 : Sample := ⟨7, [1], [2], [1], 2, [20, 21]⟩

/-- Witness for C9: a clip whose object token 2 is unmapped aborts the
whole build and persists nothing. -/
theorem C9_missing_vocab_aborts_witness :
    (∃ w', sen2vec tpC9 [2] Mode.simple =
      Except.error (VecError.missingVocab w')) ∧
    (prepareDatabase tpC9 cfgC9 [(0, sC9)] =
        Except.error (VecError.missingVocab 2) ∧
      initDataset [] 0 tpC9 cfgC9 id [(0, sC9)] =
        (Except.error (VecError.missingVocab 2), [])) :=
  ⟨C9_missing_vocab_aborts.1 tpC9 [2] Mode.simple 2
      (fun h => Mode.noConfusion h) (fun _ => by decide) rfl,
    C9_missing_vocab_aborts.2 [] 0 tpC9 cfgC9 id [] [] 0 sC9
      (initPrepState [(0, sC9)]) (VecError.missingVocab 2)
      rfl rfl (by decide) (by decide) rfl⟩
